import Mathlib

/-
Shallow embedding of `src/src/obsidianScholar.ts` (the `ObsidianScholar`
class) from the obsidian-scholar repository.

Modelling conventions:
- JavaScript strings are `List Char`.
- The vault filesystem is an association list from paths to contents; the
  Obsidian `adapter.exists` / `getAbstractFileByPath` checks both consult it.
- A JavaScript runtime `TypeError` (property access on `undefined`/`null`)
  is an explicit error value, since the source performs unguarded accesses.
- Notices shown to the user and network requests are returned as explicit
  event lists, so that frame conditions ("no request", "no write") are
  statable.
- `getDate` (from `./utility`) is an injected function from a format string
  to the formatted date, since its output depends on the wall clock.
-/

namespace Scholar

/-- Left brace character, kept as a named constant. -/
def lbrace : Char := Char.ofNat 123

/-- Right brace character, kept as a named constant. -/
def rbrace : Char := Char.ofNat 125

/-- Newline character. -/
def nlChar : Char := Char.ofNat 10

/-- Carriage-return character. -/
def crChar : Char := Char.ofNat 13

/-- Does the first list start with the second?  (`"abc".startsWith "ab"`.) -/
def startsWith : List Char → List Char → Bool
  | _, [] => true
  | [], _ :: _ => false
  | c :: cs, p :: ps => c == p && startsWith cs ps

/-- JS `String.prototype.includes`: substring containment. -/
def containsSub : List Char → List Char → Bool
  | [], needle => needle.isEmpty
  | c :: rest, needle => startsWith (c :: rest) needle || containsSub rest needle

/-- Number of positions at which `needle` occurs in `hay` (overlaps counted). -/
def countOcc : List Char → List Char → Nat
  | [], needle => if needle.isEmpty then 1 else 0
  | c :: rest, needle =>
    (if startsWith (c :: rest) needle then 1 else 0) + countOcc rest needle

/-- JS `Array.prototype.join`: concatenate with a separator. -/
def joinWith (v : List Char) : List (List Char) → List Char
  | [] => []
  | [x] => x
  | x :: y :: t => x ++ v ++ joinWith v (y :: t)

/-- JS `"s".split(",")`: split on commas; the result is never empty
(`"".split(",")` is `[""]`). -/
def splitComma : List Char → List (List Char)
  | [] => [[]]
  | c :: rest =>
    if c == ',' then [] :: splitComma rest
    else
      match splitComma rest with
      | [] => [[c]]
      | x :: xs => (c :: x) :: xs

/-- JS `s.replace("\n", " ")`: a string pattern replaces only the FIRST
occurrence. -/
def replaceFirstNl : List Char → List Char
  | [] => []
  | c :: rest => if c == nlChar then ' ' :: rest else c :: replaceFirstNl rest

/-- Scan for the lazily-matched closing `]]` of `/\[\[(.*?)\]\]/`; `.` does
not match line terminators, so a newline before the first `]]` fails the
match at this start position. -/
def scanLinkClose : List Char → List Char → Option (List Char)
  | [], _ => none
  | c :: rest, acc =>
    if startsWith (c :: rest) [']', ']'] then some acc.reverse
    else if c == nlChar || c == crChar then none
    else scanLinkClose rest (c :: acc)

/-- Try to match `/\[\[(.*?)\]\]/` at the start of the string, returning the
first capture group. -/
def matchLinkAt : List Char → Option (List Char)
  | '[' :: '[' :: rest => scanLinkClose rest []
  | _ => none

/-- JS `s.match(/\[\[(.*?)\]\]/)`, reduced to its first capture group:
leftmost start position, lazy capture; `none` models a `null` match result. -/
def extractLink : List Char → Option (List Char)
  | [] => none
  | c :: rest =>
    match matchLinkAt (c :: rest) with
    | some r => some r
    | none => extractLink rest

/-- Modelled from the spec: the `StructuredPaperData` record is declared in
`src/paperData.ts`, which is not among the embedded sources; field names and
optionality follow the specification's data model (§3) and the construction
site in `getPaperDataFromLocalFile`. -/
structure StructuredPaperData where
  title : List Char
  authors : List (List Char)
  abstract : List Char
  url : List Char
  pdfUrl : Option (List Char)
  pdfPath : Option (List Char)
  venue : Option (List Char)
  publicationDate : Option (List Char)
  tags : Option (List (List Char))
  citekey : Option (List Char)
  bibtex : Option (List Char)
deriving DecidableEq

/-- A note's front-matter as cached by Obsidian: every key optional; a file
may also lack front-matter entirely (`Option Frontmatter` at use sites). -/
structure Frontmatter where
  title : Option (List Char)
  authors : Option (List Char)
  abstract : Option (List Char)
  url : Option (List Char)
  venue : Option (List Char)
  year : Option (List Char)
  tags : Option (List (List Char))
  pdf : Option (List Char)
  citekey : Option (List Char)
deriving DecidableEq

/-- A JavaScript runtime error: `TypeError` from accessing a property of
`undefined` or `null`. -/
inductive JsError where
  | typeError
deriving DecidableEq

instance : DecidableEq (Except JsError StructuredPaperData) := fun a b =>
  match a, b with
  | Except.error e, Except.error e' =>
    if h : e = e' then isTrue (by rw [h]) else isFalse (by intro hc; cases hc; exact h rfl)
  | Except.ok v, Except.ok v' =>
    if h : v = v' then isTrue (by rw [h]) else isFalse (by intro hc; cases hc; exact h rfl)
  | Except.error _, Except.ok _ => isFalse (by intro hc; cases hc)
  | Except.ok _, Except.error _ => isFalse (by intro hc; cases hc)

/-- `getPaperDataFromLocalFile` (obsidianScholar.ts lines 27-46).
`let pdfPath = frontmatter?.pdf ?? ""` then `pdfPath.match(/\[\[(.*?)\]\]/)[1]`:
indexing a `null` match result throws.  `frontmatter?.authors.split(",") ?? []`:
the optional chain only guards `frontmatter` itself, so a present front-matter
without an `authors` key calls `.split` on `undefined` and throws. -/
def getPaperDataFromLocalFile (frontmatter : Option Frontmatter) (basename : List Char) :
    Except JsError StructuredPaperData :=
  match extractLink ((frontmatter.bind Frontmatter.pdf).getD []) with
  | none => Except.error JsError.typeError
  | some pdfPath =>
    match frontmatter with
    | none =>
      Except.ok
        { title := basename
          authors := []
          abstract := []
          url := []
          pdfUrl := none
          pdfPath := some pdfPath
          venue := some []
          publicationDate := some []
          tags := some []
          citekey := some []
          bibtex := none }
    | some fm =>
      match fm.authors with
      | none => Except.error JsError.typeError
      | some a =>
        Except.ok
          { title := fm.title.getD basename
            authors := splitComma a
            abstract := fm.abstract.getD []
            url := fm.url.getD []
            pdfUrl := none
            pdfPath := some pdfPath
            venue := some (fm.venue.getD [])
            publicationDate := some (fm.year.getD [])
            tags := some (fm.tags.getD [])
            citekey := some (fm.citekey.getD [])
            bibtex := none }

/-- The character class `[a-zA-Z0-9 ]` of `constructFileName`. -/
def isFileNameSafeChar (c : Char) : Bool :=
  ('a' ≤ c && c ≤ 'z') || ('A' ≤ c && c ≤ 'Z') || ('0' ≤ c && c ≤ '9') || c == ' '

/-- The global replace `title.replace(/[^a-zA-Z0-9 ]/g, "")`: every character
outside the class is deleted, the rest kept in order. -/
def stripUnsafeChars : List Char → List Char
  | [] => []
  | c :: rest =>
    if isFileNameSafeChar c then c :: stripUnsafeChars rest else stripUnsafeChars rest

/-- `constructFileName` (obsidianScholar.ts lines 22-25). -/
def constructFileName (paperData : StructuredPaperData) : List Char :=
  stripUnsafeChars paperData.title

/-- JS `s.replace(/pat/g, v)` for a literal pattern `pat`: scan left to right,
replace each non-overlapping occurrence, never re-scanning the inserted
replacement.  Fuel-indexed so the recursion is structural; the wrapper below
supplies `s.length`, which always suffices since each step consumes at least
one character of `s`. -/
def replaceAllF : Nat → List Char → List Char → List Char → List Char
  | 0, _, _, s => s
  | Nat.succ fuel, pat, v, s =>
    match s with
    | [] => []
    | c :: rest =>
      if startsWith (c :: rest) pat && !pat.isEmpty then
        v ++ replaceAllF fuel pat v ((c :: rest).drop pat.length)
      else
        c :: replaceAllF fuel pat v rest

/-- `template.replace(/pat/g, v)` with a literal (regex-special-free) pattern. -/
def replaceAll (pat v s : List Char) : List Char :=
  replaceAllF s.length pat v s

/-- The segments of `s` between the non-overlapping occurrences of `pat`,
found by the same left-to-right scan as `replaceAllF` but independent of any
replacement value. -/
def splitOnPatF : Nat → List Char → List Char → List (List Char)
  | 0, _, s => [s]
  | Nat.succ fuel, pat, s =>
    match s with
    | [] => [[]]
    | c :: rest =>
      if startsWith (c :: rest) pat && !pat.isEmpty then
        [] :: splitOnPatF fuel pat ((c :: rest).drop pat.length)
      else
        match splitOnPatF fuel pat rest with
        | [] => [[c]]
        | x :: xs => (c :: x) :: xs

/-- Wrapper supplying the fuel for `splitOnPatF`. -/
def splitOnPat (pat s : List Char) : List (List Char) :=
  splitOnPatF s.length pat s

/-- Scan for the lazily-matched closing braces of `/{{date:(.*?)}}/`,
accumulating the capture; `.` does not match line terminators.  Returns the
capture and the remainder after the closing braces. -/
def scanFmtClose : List Char → List Char → Option (List Char × List Char)
  | [], _ => none
  | c :: rest, acc =>
    if startsWith (c :: rest) [rbrace, rbrace] then some (acc.reverse, rest.drop 1)
    else if c == nlChar || c == crChar then none
    else scanFmtClose rest (c :: acc)

/-- JS `template.replace(/{{date:(.*?)}}/g, (_, format) => d format)` (and the
`{{time:...}}` variant): global scan; at each position where `openPat` (for
example `{{date:`) matches and a closing `}}` follows on the same line, the
whole match is replaced by `d` applied to the lazy capture; otherwise the
scan advances one character. -/
def replaceDateFmtF : Nat → List Char → (List Char → List Char) → List Char → List Char
  | 0, _, _, s => s
  | Nat.succ fuel, openPat, d, s =>
    match s with
    | [] => []
    | c :: rest =>
      if startsWith (c :: rest) openPat then
        match scanFmtClose ((c :: rest).drop openPat.length) [] with
        | some (fmt, remainder) => d fmt ++ replaceDateFmtF fuel openPat d remainder
        | none => c :: replaceDateFmtF fuel openPat d rest
      else
        c :: replaceDateFmtF fuel openPat d rest

/-- Wrapper supplying the fuel for `replaceDateFmtF`. -/
def replaceDateFmt (openPat : List Char) (d : List Char → List Char) (s : List Char) : List Char :=
  replaceDateFmtF s.length openPat d s

/-- Build the literal token `lbrace lbrace name rbrace rbrace` for a field name. -/
def tokL (name : List Char) : List Char :=
  lbrace :: lbrace :: (name ++ [rbrace, rbrace])

/-- Field name `date`. -/
def strDate : List Char := ['d', 'a', 't', 'e']

/-- Field name `time`. -/
def strTime : List Char := ['t', 'i', 'm', 'e']

/-- Field name `title`. -/
def strTitle : List Char := ['t', 'i', 't', 'l', 'e']

/-- Field name `authors`. -/
def strAuthors : List Char := ['a', 'u', 't', 'h', 'o', 'r', 's']

/-- Field name `abstract`. -/
def strAbstract : List Char := ['a', 'b', 's', 't', 'r', 'a', 'c', 't']

/-- Field name `url`. -/
def strUrl : List Char := ['u', 'r', 'l']

/-- Field name `venue`. -/
def strVenue : List Char := ['v', 'e', 'n', 'u', 'e']

/-- Field name `publicationDate`. -/
def strPublicationDate : List Char :=
  ['p', 'u', 'b', 'l', 'i', 'c', 'a', 't', 'i', 'o', 'n', 'D', 'a', 't', 'e']

/-- Field name `tags`. -/
def strTags : List Char := ['t', 'a', 'g', 's']

/-- Field name `pdf`. -/
def strPdf : List Char := ['p', 'd', 'f']

/-- Field name `citekey`. -/
def strCitekey : List Char := ['c', 'i', 't', 'e', 'k', 'e', 'y']

/-- The opening text `lbrace lbrace date :` of the parameterized date token. -/
def dateOpenPat : List Char := lbrace :: lbrace :: (strDate ++ [':'])

/-- The opening text `lbrace lbrace time :` of the parameterized time token. -/
def timeOpenPat : List Char := lbrace :: lbrace :: (strTime ++ [':'])

/-- The default date format string `YYYY-MM-DD`. -/
def fmtDateDefault : List Char := ['Y', 'Y', 'Y', 'Y', '-', 'M', 'M', '-', 'D', 'D']

/-- The default time format string `HH:mm`. -/
def fmtTimeDefault : List Char := ['H', 'H', ':', 'm', 'm']

/-- The separator `", "` used by `join`. -/
def commaSpace : List Char := [',', ' ']

/-- JS `paperData.venue ? paperData.venue.replace("\n", " ") : ""` for an
optional field: truthy (present and non-empty) values get the first newline
replaced, everything else becomes the empty string. -/
def truthyReplaceNl : Option (List Char) → List Char
  | some v => if v.isEmpty then [] else replaceFirstNl v
  | none => []

/-- The wrapping `[[path]]` used for the `{{pdf}}` substitution. -/
def wrapLink (p : List Char) : List Char :=
  '[' :: '[' :: (p ++ [']', ']'])

/-- The substitution pipeline of `createFileWithTemplate` (obsidianScholar.ts
lines 69-86) up to and including the `{{pdf}}` pass, in source order:
`{{date}}`, `{{time}}`, `{{date:FMT}}`, `{{time:FMT}}`, then the metadata
tokens, each value with only its first newline replaced (string-pattern
`replace`), then `{{pdf}}`. -/
def renderThroughPdf (d : List Char → List Char) (p : StructuredPaperData)
    (template : List Char) : List Char :=
  replaceAll (tokL strPdf)
    (match p.pdfPath with
     | some pp => if pp.isEmpty then [] else wrapLink pp
     | none => [])
    (replaceAll (tokL strTags)
      (match p.tags with
       | some l => joinWith commaSpace l
       | none => [])
      (replaceAll (tokL strPublicationDate) (truthyReplaceNl p.publicationDate)
        (replaceAll (tokL strVenue) (truthyReplaceNl p.venue)
          (replaceAll (tokL strUrl) (if p.url.isEmpty then [] else replaceFirstNl p.url)
            (replaceAll (tokL strAbstract) (replaceFirstNl p.abstract)
              (replaceAll (tokL strAuthors) (replaceFirstNl (joinWith commaSpace p.authors))
                (replaceAll (tokL strTitle) (replaceFirstNl p.title)
                  (replaceDateFmt timeOpenPat d
                    (replaceDateFmt dateOpenPat d
                      (replaceAll (tokL strTime) (d fmtTimeDefault)
                        (replaceAll (tokL strDate) (d fmtDateDefault) template)))))))))))

/-- `createFileWithTemplate` (obsidianScholar.ts lines 58-93) as a function of
the resolved template text: the full pipeline, with the `{{citekey}}` pass
guarded by `if (paperData.citekey)`, so it runs only for a truthy citekey. -/
def createFileWithTemplate (d : List Char → List Char) (p : StructuredPaperData)
    (template : List Char) : List Char :=
  match p.citekey with
  | some ck =>
    if ck.isEmpty then renderThroughPdf d p template
    else replaceAll (tokL strCitekey) ck (renderThroughPdf d p template)
  | none => renderThroughPdf d p template

/-- The vault filesystem: an association list from paths to file contents. -/
abbrev FS := List (List Char × List Char)

/-- Look a path up in the vault (`adapter.exists` is `isSome` of this;
`getAbstractFileByPath` returns the file when it is `some`). -/
def lookupFS : FS → List Char → Option (List Char)
  | [], _ => none
  | (p, c) :: rest, q => if p = q then some c else lookupFS rest q

/-- The resolved plugin settings the `ObsidianScholar` methods consult
(declared in `src/settingsTab.ts`, consumed in the embedded source). -/
structure WriterSettings where
  templateFileLocation : List Char
  openPdfAfterDownload : Bool
  pdfDownloadLocation : List Char
  NoteLocation : List Char
  saveBibTex : Bool
  bibTexFileLocation : List Char
deriving DecidableEq

/-- Observable events of `createFileFromPaperData`: the file-exists notice,
opening a link, and opening a PDF in a split leaf. -/
inductive NoteEvent where
  | noticeFileExists
  | openedLink (p : List Char)
  | openedPdf (p : List Char)
deriving DecidableEq

/-- `createFileFromPaperData` (obsidianScholar.ts lines 95-119): render the
template (the template file's content if it exists, else the default), then
either notice-and-open the existing file at `pathToFile`, or create it;
finally, when `openPdfAfterDownload` is set and `pdfPath` is truthy, open the
PDF.  Returns the new filesystem and the event list. -/
def createFileFromPaperData (d : List Char → List Char) (defaultTemplate : List Char)
    (st : WriterSettings) (fs : FS) (p : StructuredPaperData) (pathToFile : List Char) :
    FS × List NoteEvent :=
  let template := (lookupFS fs st.templateFileLocation).getD defaultTemplate
  let content := createFileWithTemplate d p template
  let step :=
    if (lookupFS fs pathToFile).isSome then
      (fs, [NoteEvent.noticeFileExists, NoteEvent.openedLink pathToFile])
    else
      ((pathToFile, content) :: fs, [NoteEvent.openedLink pathToFile])
  if st.openPdfAfterDownload then
    match p.pdfPath with
    | some pp =>
      if pp.isEmpty then step else (step.1, step.2 ++ [NoteEvent.openedPdf pp])
    | none => step
  else step

/-- The `.pdf` extension appended to the save path. -/
def pdfExt : List Char := ['.', 'p', 'd', 'f']

/-- Outcome of the `downloadPdf` promise. -/
inductive DlOutcome where
  | resolved (p : List Char)
  | rejectedNoUrl
  | rejectedFetchError
deriving DecidableEq

/-- `downloadPdf` (obsidianScholar.ts lines 121-154): reject on a falsy URL;
compute `pdfDownloadFolder + pathSep + filename + ".pdf"`; if a file already
exists there, resolve with that path; otherwise issue one `requestUrl` GET
(modelled by `fetch`) and write the body.  The third component lists the URLs
actually requested. -/
def downloadPdf (st : WriterSettings) (pathSep : List Char)
    (fetch : List Char → Option (List Char)) (fs : FS)
    (pdfUrl : Option (List Char)) (filename : List Char) :
    DlOutcome × FS × List (List Char) :=
  match pdfUrl with
  | none => (DlOutcome.rejectedNoUrl, fs, [])
  | some u =>
    if u.isEmpty then (DlOutcome.rejectedNoUrl, fs, [])
    else
      let pdfSavePath := st.pdfDownloadLocation ++ pathSep ++ filename ++ pdfExt
      if (lookupFS fs pdfSavePath).isSome then
        (DlOutcome.resolved pdfSavePath, fs, [])
      else
        match fetch u with
        | some body => (DlOutcome.resolved pdfSavePath, (pdfSavePath, body) :: fs, [u])
        | none => (DlOutcome.rejectedFetchError, fs, [u])

/-- Notices `saveBibTex` can emit. -/
inductive BibNotice where
  | locationNotSet
  | alreadyExists
  | notFound
  | saved
deriving DecidableEq

/-- `saveBibTex` (obsidianScholar.ts lines 156-189).  `file` is the state of
the configured BibTeX file (`none` when it does not exist).  The source
declares `let bibtexText = ""` in the outer scope and then re-declares
`let bibtexText = await ...read(...)` INSIDE the existence check, shadowing
the outer binding; the later `vault.append(file, bibtex + "\n\n" + bibtexText)`
therefore sees the outer, still-empty value, and `append` adds its text at the
END of the file's existing content. -/
def saveBibTex (st : WriterSettings) (file : Option (List Char)) (bibtex : List Char) :
    Option (List Char) × List BibNotice :=
  if st.saveBibTex = false then (file, [])
  else if st.bibTexFileLocation.isEmpty then (file, [BibNotice.locationNotSet])
  else
    let bibtexText : List Char := []
    match file with
    | some content =>
      if containsSub content bibtex then (file, [BibNotice.alreadyExists])
      else
        (some (content ++ (bibtex ++ [nlChar, nlChar] ++ bibtexText)), [BibNotice.saved])
    | none => (file, [BibNotice.notFound])

/-! Helper lemmas about the string scanners. -/

theorem startsWith_append (a b : List Char) : startsWith (a ++ b) a = true := by
  induction a with
  | nil => cases b <;> rfl
  | cons c cs ih => simp [startsWith, ih]

theorem startsWith_refl (a : List Char) : startsWith a a = true := by
  simpa using startsWith_append a []

theorem containsSub_nil_needle (hay : List Char) : containsSub hay [] = true := by
  cases hay <;> simp [containsSub, startsWith, List.isEmpty]

theorem containsSub_mid (x e y : List Char) : containsSub (x ++ e ++ y) e = true := by
  induction x with
  | nil =>
    cases e with
    | nil => simpa using containsSub_nil_needle y
    | cons d ds =>
      have h := startsWith_append (d :: ds) y
      simp only [containsSub, Bool.or_eq_true]
      left
      simpa using h
  | cons a x' ih =>
    simp only [containsSub, Bool.or_eq_true, List.cons_append]
    right
    simpa [List.append_assoc] using ih

theorem replaceAllF_nil (fuel : Nat) (pat v : List Char) :
    replaceAllF fuel pat v [] = [] := by
  cases fuel <;> rfl

theorem splitOnPatF_ne_nil (fuel : Nat) (pat s : List Char) :
    splitOnPatF fuel pat s ≠ [] := by
  induction fuel generalizing s with
  | zero => simp [splitOnPatF]
  | succ fuel ih =>
    cases s with
    | nil => simp [splitOnPatF]
    | cons c rest =>
      by_cases h : (startsWith (c :: rest) pat && !pat.isEmpty) = true
      · simp [splitOnPatF, h]
      · rcases hs : splitOnPatF fuel pat rest with _ | ⟨x, xs⟩
        · exact absurd hs (ih rest)
        · simp [splitOnPatF, h, hs]

theorem replaceAllF_eq_joinWith (fuel : Nat) (pat v : List Char) (s : List Char) :
    replaceAllF fuel pat v s = joinWith v (splitOnPatF fuel pat s) := by
  induction fuel generalizing s with
  | zero => simp [replaceAllF, splitOnPatF, joinWith]
  | succ fuel ih =>
    cases s with
    | nil => simp [replaceAllF, splitOnPatF, joinWith]
    | cons c rest =>
      by_cases h : (startsWith (c :: rest) pat && !pat.isEmpty) = true
      · rcases hs : splitOnPatF fuel pat ((c :: rest).drop pat.length) with _ | ⟨x, xs⟩
        · exact absurd hs (splitOnPatF_ne_nil fuel pat _)
        · simp only [replaceAllF, splitOnPatF, h, if_true]
          rw [ih, hs]
          simp [joinWith]
      · rcases hs : splitOnPatF fuel pat rest with _ | ⟨x, xs⟩
        · exact absurd hs (splitOnPatF_ne_nil fuel pat rest)
        · simp only [replaceAllF, splitOnPatF, h, if_false, hs]
          cases xs with
          | nil => simp [joinWith, ih rest, hs]
          | cons y t => simp [joinWith, ih rest, hs]

theorem containsSub_eq_false_of_not_mem (c0 : Char) (r s : List Char)
    (h : c0 ∉ s) : containsSub s (c0 :: r) = false := by
  induction s with
  | nil => rfl
  | cons c rest ih =>
    have hne : c ≠ c0 := fun he => h (he ▸ List.mem_cons_self c rest)
    have hmem : c0 ∉ rest := fun hm => h (List.mem_cons_of_mem c hm)
    have hbeq : (c == c0) = false := by
      exact beq_eq_false_iff_ne.mpr hne
    simp [containsSub, startsWith, hbeq, ih hmem]

theorem replaceAllF_not_contains (fuel : Nat) (pat v : List Char) (s : List Char)
    (h : containsSub s pat = false) : replaceAllF fuel pat v s = s := by
  induction fuel generalizing s with
  | zero => rfl
  | succ fuel ih =>
    cases s with
    | nil => rfl
    | cons c rest =>
      have h1 : startsWith (c :: rest) pat = false := by
        by_contra hc
        simp only [containsSub, Bool.or_eq_false_iff] at h
        exact hc h.1
      have h2 : containsSub rest pat = false := by
        simp only [containsSub, Bool.or_eq_false_iff] at h
        exact h.2
      simp [replaceAllF, h1, ih rest h2]

theorem replaceAll_not_contains (pat v s : List Char)
    (h : containsSub s pat = false) : replaceAll pat v s = s :=
  replaceAllF_not_contains s.length pat v s h

theorem replaceDateFmtF_not_contains (fuel : Nat) (openPat : List Char)
    (d : List Char → List Char) (s : List Char)
    (h : containsSub s openPat = false) : replaceDateFmtF fuel openPat d s = s := by
  induction fuel generalizing s with
  | zero => rfl
  | succ fuel ih =>
    cases s with
    | nil => rfl
    | cons c rest =>
      have h1 : startsWith (c :: rest) openPat = false := by
        by_contra hc
        simp only [containsSub, Bool.or_eq_false_iff] at h
        exact hc h.1
      have h2 : containsSub rest openPat = false := by
        simp only [containsSub, Bool.or_eq_false_iff] at h
        exact h.2
      simp [replaceDateFmtF, h1, ih rest h2]

theorem replaceDateFmt_not_contains (openPat : List Char) (d : List Char → List Char)
    (s : List Char) (h : containsSub s openPat = false) :
    replaceDateFmt openPat d s = s :=
  replaceDateFmtF_not_contains s.length openPat d s h

theorem replaceAll_self (pat v : List Char) (h : pat ≠ []) :
    replaceAll pat v pat = v := by
  cases pat with
  | nil => exact absurd rfl h
  | cons q qs =>
    have h1 : startsWith (q :: qs) (q :: qs) = true := startsWith_refl _
    simp [replaceAll, replaceAllF, h1, List.drop_length, replaceAllF_nil]

theorem replaceAll_tokL_self (name v : List Char) :
    replaceAll (tokL name) v (tokL name) = v :=
  replaceAll_self (tokL name) v (by simp [tokL])

theorem not_mem_replaceFirstNl (s : List Char) (h : lbrace ∉ s) :
    lbrace ∉ replaceFirstNl s := by
  induction s with
  | nil => simp [replaceFirstNl]
  | cons c rest ih =>
    have hc : c ≠ lbrace := fun he => h (he ▸ List.mem_cons_self c rest)
    have hmem : lbrace ∉ rest := fun hm => h (List.mem_cons_of_mem c hm)
    by_cases hnl : (c == nlChar) = true
    · simp only [replaceFirstNl, hnl, if_true]
      intro hin
      rcases List.mem_cons.mp hin with he | hm
      · exact absurd he.symm (by decide)
      · exact hmem hm
    · simp only [replaceFirstNl, hnl, if_false]
      intro hin
      rcases List.mem_cons.mp hin with he | hm
      · exact hc he.symm
      · exact ih hmem hm

theorem replaceAll_lbrace_head (r v s : List Char) (h : lbrace ∉ s) :
    replaceAll (lbrace :: r) v s = s :=
  replaceAll_not_contains _ v s (containsSub_eq_false_of_not_mem lbrace r s h)

theorem replaceAll_tokL_not_mem (name v s : List Char) (h : lbrace ∉ s) :
    replaceAll (tokL name) v s = s := by
  have := replaceAll_lbrace_head (lbrace :: (name ++ [rbrace, rbrace])) v s h
  simpa [tokL] using this

theorem replaceAll_nil (pat v : List Char) : replaceAll pat v [] = [] := rfl

theorem isEmpty_false_of_ne (l : List Char) (h : l ≠ []) : l.isEmpty = false := by
  cases l with
  | nil => exact absurd rfl h
  | cons a as => rfl

theorem stripUnsafeChars_eq_filter (l : List Char) :
    stripUnsafeChars l = l.filter (fun c => isFileNameSafeChar c) := by
  induction l with
  | nil => rfl
  | cons c rest ih =>
    by_cases h : isFileNameSafeChar c = true
    · simp [stripUnsafeChars, List.filter, h, ih]
    · simp [stripUnsafeChars, List.filter, h, ih]

/-! Concrete fixtures used by counterexamples and witnesses. -/

/-- A date function returning the empty string for every format. -/
def dZero : List Char → List Char := fun _ => []

/-- A paper record with every field empty or absent. -/
def emptyPaper : StructuredPaperData :=
  { title := []
    authors := []
    abstract := []
    url := []
    pdfUrl := none
    pdfPath := none
    venue := none
    publicationDate := none
    tags := none
    citekey := none
    bibtex := none }

/-- Settings with BibTeX saving enabled and a configured BibTeX location. -/
def bibSettings : WriterSettings :=
  { templateFileLocation := []
    openPdfAfterDownload := false
    pdfDownloadLocation := []
    NoteLocation := []
    saveBibTex := true
    bibTexFileLocation := ['b'] }

/-! Rendering lemmas for single-token templates. -/

theorem citekeyPass_skip (d : List Char → List Char) (p : StructuredPaperData)
    (template : List Char) (h : lbrace ∉ renderThroughPdf d p template) :
    createFileWithTemplate d p template = renderThroughPdf d p template := by
  unfold createFileWithTemplate
  cases hck : p.citekey with
  | none => rfl
  | some ck =>
    by_cases hce : ck.isEmpty = true
    · simp [hce]
    · simp only [Bool.not_eq_true] at hce
      simp [hce, replaceAll_tokL_not_mem strCitekey ck _ h]

theorem renderThroughPdf_titleTok (d : List Char → List Char) (p : StructuredPaperData)
    (ht : lbrace ∉ p.title) :
    renderThroughPdf d p (tokL strTitle) = replaceFirstNl p.title := by
  have hT : lbrace ∉ replaceFirstNl p.title := not_mem_replaceFirstNl _ ht
  unfold renderThroughPdf
  rw [replaceAll_not_contains (tokL strDate) _ (tokL strTitle) (by decide)]
  rw [replaceAll_not_contains (tokL strTime) _ (tokL strTitle) (by decide)]
  rw [replaceDateFmt_not_contains dateOpenPat d (tokL strTitle) (by decide)]
  rw [replaceDateFmt_not_contains timeOpenPat d (tokL strTitle) (by decide)]
  rw [replaceAll_tokL_self strTitle (replaceFirstNl p.title)]
  rw [replaceAll_tokL_not_mem strAuthors _ (replaceFirstNl p.title) hT]
  rw [replaceAll_tokL_not_mem strAbstract _ (replaceFirstNl p.title) hT]
  rw [replaceAll_tokL_not_mem strUrl _ (replaceFirstNl p.title) hT]
  rw [replaceAll_tokL_not_mem strVenue _ (replaceFirstNl p.title) hT]
  rw [replaceAll_tokL_not_mem strPublicationDate _ (replaceFirstNl p.title) hT]
  rw [replaceAll_tokL_not_mem strTags _ (replaceFirstNl p.title) hT]
  rw [replaceAll_tokL_not_mem strPdf _ (replaceFirstNl p.title) hT]

theorem renderThroughPdf_urlTok (d : List Char → List Char) (p : StructuredPaperData)
    (hu : p.url = []) :
    renderThroughPdf d p (tokL strUrl) = [] := by
  unfold renderThroughPdf
  rw [replaceAll_not_contains (tokL strDate) _ (tokL strUrl) (by decide)]
  rw [replaceAll_not_contains (tokL strTime) _ (tokL strUrl) (by decide)]
  rw [replaceDateFmt_not_contains dateOpenPat d (tokL strUrl) (by decide)]
  rw [replaceDateFmt_not_contains timeOpenPat d (tokL strUrl) (by decide)]
  rw [replaceAll_not_contains (tokL strTitle) _ (tokL strUrl) (by decide)]
  rw [replaceAll_not_contains (tokL strAuthors) _ (tokL strUrl) (by decide)]
  rw [replaceAll_not_contains (tokL strAbstract) _ (tokL strUrl) (by decide)]
  rw [hu]
  rw [show (if ([] : List Char).isEmpty then ([] : List Char) else replaceFirstNl []) = [] from rfl]
  rw [replaceAll_tokL_self strUrl []]
  rw [replaceAll_nil (tokL strVenue) _]
  rw [replaceAll_nil (tokL strPublicationDate) _]
  rw [replaceAll_nil (tokL strTags) _]
  rw [replaceAll_nil (tokL strPdf) _]

theorem renderThroughPdf_venueTok (d : List Char → List Char) (p : StructuredPaperData)
    (hv : p.venue = none) :
    renderThroughPdf d p (tokL strVenue) = [] := by
  unfold renderThroughPdf
  rw [replaceAll_not_contains (tokL strDate) _ (tokL strVenue) (by decide)]
  rw [replaceAll_not_contains (tokL strTime) _ (tokL strVenue) (by decide)]
  rw [replaceDateFmt_not_contains dateOpenPat d (tokL strVenue) (by decide)]
  rw [replaceDateFmt_not_contains timeOpenPat d (tokL strVenue) (by decide)]
  rw [replaceAll_not_contains (tokL strTitle) _ (tokL strVenue) (by decide)]
  rw [replaceAll_not_contains (tokL strAuthors) _ (tokL strVenue) (by decide)]
  rw [replaceAll_not_contains (tokL strAbstract) _ (tokL strVenue) (by decide)]
  rw [replaceAll_not_contains (tokL strUrl) _ (tokL strVenue) (by decide)]
  rw [hv]
  rw [show truthyReplaceNl none = [] from rfl]
  rw [replaceAll_tokL_self strVenue []]
  rw [replaceAll_nil (tokL strPublicationDate) _]
  rw [replaceAll_nil (tokL strTags) _]
  rw [replaceAll_nil (tokL strPdf) _]

theorem renderThroughPdf_publicationDateTok (d : List Char → List Char)
    (p : StructuredPaperData) (hpd : p.publicationDate = none) :
    renderThroughPdf d p (tokL strPublicationDate) = [] := by
  unfold renderThroughPdf
  rw [replaceAll_not_contains (tokL strDate) _ (tokL strPublicationDate) (by decide)]
  rw [replaceAll_not_contains (tokL strTime) _ (tokL strPublicationDate) (by decide)]
  rw [replaceDateFmt_not_contains dateOpenPat d (tokL strPublicationDate) (by decide)]
  rw [replaceDateFmt_not_contains timeOpenPat d (tokL strPublicationDate) (by decide)]
  rw [replaceAll_not_contains (tokL strTitle) _ (tokL strPublicationDate) (by decide)]
  rw [replaceAll_not_contains (tokL strAuthors) _ (tokL strPublicationDate) (by decide)]
  rw [replaceAll_not_contains (tokL strAbstract) _ (tokL strPublicationDate) (by decide)]
  rw [replaceAll_not_contains (tokL strUrl) _ (tokL strPublicationDate) (by decide)]
  rw [replaceAll_not_contains (tokL strVenue) _ (tokL strPublicationDate) (by decide)]
  rw [hpd]
  rw [show truthyReplaceNl none = [] from rfl]
  rw [replaceAll_tokL_self strPublicationDate []]
  rw [replaceAll_nil (tokL strTags) _]
  rw [replaceAll_nil (tokL strPdf) _]

theorem renderThroughPdf_tagsTok (d : List Char → List Char) (p : StructuredPaperData)
    (htg : p.tags = none) :
    renderThroughPdf d p (tokL strTags) = [] := by
  unfold renderThroughPdf
  rw [replaceAll_not_contains (tokL strDate) _ (tokL strTags) (by decide)]
  rw [replaceAll_not_contains (tokL strTime) _ (tokL strTags) (by decide)]
  rw [replaceDateFmt_not_contains dateOpenPat d (tokL strTags) (by decide)]
  rw [replaceDateFmt_not_contains timeOpenPat d (tokL strTags) (by decide)]
  rw [replaceAll_not_contains (tokL strTitle) _ (tokL strTags) (by decide)]
  rw [replaceAll_not_contains (tokL strAuthors) _ (tokL strTags) (by decide)]
  rw [replaceAll_not_contains (tokL strAbstract) _ (tokL strTags) (by decide)]
  rw [replaceAll_not_contains (tokL strUrl) _ (tokL strTags) (by decide)]
  rw [replaceAll_not_contains (tokL strVenue) _ (tokL strTags) (by decide)]
  rw [replaceAll_not_contains (tokL strPublicationDate) _ (tokL strTags) (by decide)]
  rw [htg]
  rw [show (match (none : Option (List (List Char))) with
       | some l => joinWith commaSpace l
       | none => ([] : List Char)) = [] from rfl]
  rw [replaceAll_tokL_self strTags []]
  rw [replaceAll_nil (tokL strPdf) _]

/-! Claim theorems. -/

/-- C1: the claim fails on the code.  With front-matter present but no
`authors` key, `getPaperDataFromLocalFile` evaluates
`frontmatter?.authors.split(",")` where the optional chain only guards
`frontmatter`, so `.split` is called on `undefined` and a TypeError is
thrown; with front-matter entirely absent it already throws at
`pdfPath.match(...)[1]`.  It never returns a record with empty authors. -/
theorem c1_missing_authors_throws :
    getPaperDataFromLocalFile
      (some { title := none, authors := none, abstract := none, url := none,
              venue := none, year := none, tags := none,
              pdf := some "[[a.pdf]]".toList, citekey := none }) "base".toList =
      Except.error JsError.typeError ∧
    getPaperDataFromLocalFile none "base".toList = Except.error JsError.typeError := by
  decide

/-- C2: the wrapper-stripping and present-but-malformed halves hold, but the
"absent pdf field does not fail" half is violated: with front-matter present
and no `pdf` key, `frontmatter?.pdf ?? ""` yields the empty string, whose
match against the wrapper pattern is `null`, and indexing it throws.  The
three conjuncts evaluate the reader at: pdf absent (throws), pdf present
without wrapper (throws, as claimed), pdf present with wrapper (strips). -/
theorem c2_pdf_link_handling :
    getPaperDataFromLocalFile
      (some { title := none, authors := some ['A'], abstract := none, url := none,
              venue := none, year := none, tags := none, pdf := none,
              citekey := none }) "base".toList = Except.error JsError.typeError ∧
    getPaperDataFromLocalFile
      (some { title := none, authors := some ['A'], abstract := none, url := none,
              venue := none, year := none, tags := none, pdf := some "plain.pdf".toList,
              citekey := none }) "base".toList = Except.error JsError.typeError ∧
    getPaperDataFromLocalFile
      (some { title := some ['T'], authors := some ['A'], abstract := none, url := none,
              venue := none, year := none, tags := none, pdf := some "[[x]]".toList,
              citekey := none }) "base".toList =
      Except.ok { title := ['T'], authors := [['A']], abstract := [], url := [],
                  pdfUrl := none, pdfPath := some ['x'], venue := some [],
                  publicationDate := some [], tags := some [], citekey := some [],
                  bibtex := none } := by
  decide

/-- C3 counterexample: with existing content `O` and fresh entry `E`, the
saved file is `O`, then `E`, then two newlines — the entry is appended after
the existing content, not prepended ahead of it as the claim states. -/
theorem c3_counterexample :
    saveBibTex bibSettings (some ['O']) ['E'] =
      (some ['O', 'E', nlChar, nlChar], [BibNotice.saved]) ∧
    ['O', 'E', nlChar, nlChar] ≠ ['E', nlChar, nlChar, 'O'] := by
  decide

/-- C3 amended: with saving enabled and a configured location, a fresh entry
is appended AFTER the file's existing content followed by two newlines (the
prepend-style concatenation in the source reads a shadowed, empty variable
and is passed to `vault.append`), and the file then contains the entry; an
already-contained entry leaves the file unchanged. -/
theorem c3_append_after_existing (st : WriterSettings) (c e : List Char)
    (hen : st.saveBibTex = true) (hloc : st.bibTexFileLocation ≠ []) :
    (containsSub c e = false →
      saveBibTex st (some c) e =
        (some (c ++ e ++ [nlChar, nlChar]), [BibNotice.saved]) ∧
      containsSub (c ++ e ++ [nlChar, nlChar]) e = true) ∧
    (containsSub c e = true →
      saveBibTex st (some c) e = (some c, [BibNotice.alreadyExists])) := by
  have hloc' : st.bibTexFileLocation.isEmpty = false := isEmpty_false_of_ne _ hloc
  constructor
  · intro hdup
    constructor
    · simp [saveBibTex, hen, hloc', hdup, List.append_assoc]
    · exact containsSub_mid c e [nlChar, nlChar]
  · intro hdup
    simp [saveBibTex, hen, hloc', hdup]

/-- C3 witness: the amended theorem applied to content `O` and entry `E`. -/
theorem c3_append_after_existing_w :
    containsSub ['O'] ['E'] = false ∧
    (saveBibTex bibSettings (some ['O']) ['E'] =
      (some (['O'] ++ ['E'] ++ [nlChar, nlChar]), [BibNotice.saved]) ∧
     containsSub (['O'] ++ ['E'] ++ [nlChar, nlChar]) ['E'] = true) :=
  ⟨by decide,
   (c3_append_after_existing bibSettings ['O'] ['E'] rfl (by decide)).1 (by decide)⟩

/-- C4 counterexample: a title with two embedded newlines renders with only
the first newline replaced by a space — not every newline, as the claim
states. -/
theorem c4_counterexample :
    createFileWithTemplate dZero
      { emptyPaper with title := ['a', nlChar, 'b', nlChar, 'c'] } (tokL strTitle) =
      ['a', ' ', 'b', nlChar, 'c'] ∧
    ['a', ' ', 'b', nlChar, 'c'] ≠ ['a', ' ', 'b', ' ', 'c'] := by
  decide

/-- C4 amended: each metadata token substitutes its field value with only the
FIRST embedded newline replaced by a space (`String.replace` with a string
pattern), and absent optional fields substitute as the empty string: for a
title without brace characters the title-token template renders to the
first-newline-collapsed title, and the url/venue/publicationDate/tags token
templates render to empty when those fields are empty or absent. -/
theorem c4_first_newline_only (p : StructuredPaperData) (d : List Char → List Char)
    (ht : lbrace ∉ p.title) (hu : p.url = []) (hv : p.venue = none)
    (hpd : p.publicationDate = none) (htg : p.tags = none) :
    createFileWithTemplate d p (tokL strTitle) = replaceFirstNl p.title ∧
    createFileWithTemplate d p (tokL strUrl) = [] ∧
    createFileWithTemplate d p (tokL strVenue) = [] ∧
    createFileWithTemplate d p (tokL strPublicationDate) = [] ∧
    createFileWithTemplate d p (tokL strTags) = [] := by
  have h1 := renderThroughPdf_titleTok d p ht
  have h2 := renderThroughPdf_urlTok d p hu
  have h3 := renderThroughPdf_venueTok d p hv
  have h4 := renderThroughPdf_publicationDateTok d p hpd
  have h5 := renderThroughPdf_tagsTok d p htg
  refine ⟨?_, ?_, ?_, ?_, ?_⟩
  · rw [citekeyPass_skip d p _ (by rw [h1]; exact not_mem_replaceFirstNl _ ht), h1]
  · rw [citekeyPass_skip d p _ (by rw [h2]; simp), h2]
  · rw [citekeyPass_skip d p _ (by rw [h3]; simp), h3]
  · rw [citekeyPass_skip d p _ (by rw [h4]; simp), h4]
  · rw [citekeyPass_skip d p _ (by rw [h5]; simp), h5]

/-- C4 witness: the amended theorem applied to a record with title `a` and
all optional fields absent. -/
theorem c4_first_newline_only_w :
    createFileWithTemplate dZero { emptyPaper with title := ['a'] } (tokL strTitle) =
      replaceFirstNl { emptyPaper with title := ['a'] }.title ∧
    createFileWithTemplate dZero { emptyPaper with title := ['a'] } (tokL strUrl) = [] ∧
    createFileWithTemplate dZero { emptyPaper with title := ['a'] } (tokL strVenue) = [] ∧
    createFileWithTemplate dZero { emptyPaper with title := ['a'] } (tokL strPublicationDate) = [] ∧
    createFileWithTemplate dZero { emptyPaper with title := ['a'] } (tokL strTags) = [] :=
  c4_first_newline_only { emptyPaper with title := ['a'] } dZero (by decide) rfl rfl rfl rfl

/-- C5 counterexample: with abstract field equal to the literal title token,
rendering the abstract-token template outputs that token verbatim — the
output contains a fully-specified metadata token other than the citekey
exception, so the zero-occurrence claim fails (a value substituted by an
earlier pass is re-scanned only by later passes, which cannot remove an
earlier pass's token). -/
theorem c5_counterexample :
    createFileWithTemplate dZero
      { emptyPaper with title := ['T'], abstract := tokL strTitle } (tokL strAbstract) =
      tokL strTitle ∧
    containsSub
      (createFileWithTemplate dZero
        { emptyPaper with title := ['T'], abstract := tokL strTitle } (tokL strAbstract))
      (tokL strTitle) = true := by
  decide

/-- C5 amended: each individual token pass is non-recursive — the pass output
is the input split on the token, re-joined with the substituted value, so the
inserted value is never re-scanned by the pass that inserted it (though later
passes do scan it and field values can leave earlier tokens in the output) —
and when the citekey is absent or empty the `citekey` pass is skipped
entirely, leaving any literal citekey token in place. -/
theorem c5_per_pass_no_rescan (pat v s : List Char) (p : StructuredPaperData)
    (d : List Char → List Char) (t : List Char)
    (h : p.citekey = none ∨ p.citekey = some []) :
    replaceAll pat v s = joinWith v (splitOnPat pat s) ∧
    createFileWithTemplate d p t = renderThroughPdf d p t := by
  constructor
  · exact replaceAllF_eq_joinWith s.length pat v s
  · unfold createFileWithTemplate
    rcases h with h | h <;> rw [h]
    simp

/-- C5 witness: the amended theorem applied to a one-character pattern and
the empty paper record. -/
theorem c5_per_pass_no_rescan_w :
    replaceAll ['a'] ['b'] ['a', 'c'] = joinWith ['b'] (splitOnPat ['a'] ['a', 'c']) ∧
    createFileWithTemplate dZero emptyPaper ['x'] = renderThroughPdf dZero emptyPaper ['x'] :=
  c5_per_pass_no_rescan ['a'] ['b'] ['a', 'c'] emptyPaper dZero ['x'] (Or.inl rfl)

/-- C6 counterexample: for the entry consisting of two newlines and a file
holding `x` (zero occurrences), two invocations of `saveBibTex` leave the
file with THREE occurrences of the entry, not exactly one: the appended
entry and its two-newline separator overlap. -/
theorem c6_counterexample :
    countOcc ['x'] [nlChar, nlChar] = 0 ∧
    (saveBibTex bibSettings ((saveBibTex bibSettings (some ['x']) [nlChar, nlChar]).1)
      [nlChar, nlChar]).1 = some ['x', nlChar, nlChar, nlChar, nlChar] ∧
    countOcc ['x', nlChar, nlChar, nlChar, nlChar] [nlChar, nlChar] = 3 := by
  decide

/-- C6 amended: invoking `saveBibTex` twice with the same entry writes it at
most once — after the first invocation the file contains the entry (by
substring containment), so the second invocation detects it and leaves the
file unchanged; the number of textual occurrences need not be exactly one,
since the appended entry plus separator can overlap itself or the existing
content. -/
theorem c6_second_save_no_change (st : WriterSettings) (c e : List Char)
    (hen : st.saveBibTex = true) (hloc : st.bibTexFileLocation ≠ []) :
    saveBibTex st ((saveBibTex st (some c) e).1) e = ((saveBibTex st (some c) e).1,
      [BibNotice.alreadyExists]) ∧
    ∃ c1, (saveBibTex st (some c) e).1 = some c1 ∧ containsSub c1 e = true := by
  have hloc' : st.bibTexFileLocation.isEmpty = false := isEmpty_false_of_ne _ hloc
  by_cases hdup : containsSub c e = true
  · constructor
    · simp [saveBibTex, hen, hloc', hdup]
    · exact ⟨c, by simp [saveBibTex, hen, hloc', hdup], hdup⟩
  · have hdup' : containsSub c e = false := by
      cases hx : containsSub c e
      · rfl
      · exact absurd hx hdup
    have hmid : containsSub (c ++ (e ++ [nlChar, nlChar])) e = true := by
      simpa [List.append_assoc] using containsSub_mid c e [nlChar, nlChar]
    constructor
    · simp [saveBibTex, hen, hloc', hdup', hmid]
    · exact ⟨c ++ (e ++ [nlChar, nlChar]),
        by simp [saveBibTex, hen, hloc', hdup'], hmid⟩

/-- C6 witness: the amended theorem applied to content `O` and entry `E`. -/
theorem c6_second_save_no_change_w :
    saveBibTex bibSettings ((saveBibTex bibSettings (some ['O']) ['E']).1) ['E'] =
      ((saveBibTex bibSettings (some ['O']) ['E']).1, [BibNotice.alreadyExists]) ∧
    ∃ c1, (saveBibTex bibSettings (some ['O']) ['E']).1 = some c1 ∧
      containsSub c1 ['E'] = true :=
  c6_second_save_no_change bibSettings ['O'] ['E'] rfl (by decide)

/-- C7: when a note already exists at the target path,
`createFileFromPaperData` leaves the filesystem unchanged (in particular the
existing content survives), emits the file-already-exists notice, and opens
the existing file; no branch throws in the model, matching the guarded
source. -/
theorem c7_existing_note_untouched (d : List Char → List Char)
    (defaultTemplate : List Char) (st : WriterSettings) (fs : FS)
    (p : StructuredPaperData) (path c : List Char)
    (h : lookupFS fs path = some c) :
    (createFileFromPaperData d defaultTemplate st fs p path).1 = fs ∧
    lookupFS (createFileFromPaperData d defaultTemplate st fs p path).1 path = some c ∧
    NoteEvent.noticeFileExists ∈ (createFileFromPaperData d defaultTemplate st fs p path).2 ∧
    NoteEvent.openedLink path ∈ (createFileFromPaperData d defaultTemplate st fs p path).2 := by
  cases hop : st.openPdfAfterDownload <;> cases hpp : p.pdfPath <;>
    simp [createFileFromPaperData, h, hop, hpp]
  split <;> simp [h]

/-- C7 witness: the theorem applied to a one-file vault already holding the
target note. -/
theorem c7_existing_note_untouched_w :
    (createFileFromPaperData dZero [] bibSettings [(['n'], ['C'])] emptyPaper ['n']).1 =
      [(['n'], ['C'])] ∧
    lookupFS (createFileFromPaperData dZero [] bibSettings [(['n'], ['C'])] emptyPaper ['n']).1
      ['n'] = some ['C'] ∧
    NoteEvent.noticeFileExists ∈
      (createFileFromPaperData dZero [] bibSettings [(['n'], ['C'])] emptyPaper ['n']).2 ∧
    NoteEvent.openedLink ['n'] ∈
      (createFileFromPaperData dZero [] bibSettings [(['n'], ['C'])] emptyPaper ['n']).2 :=
  c7_existing_note_untouched dZero [] bibSettings [(['n'], ['C'])] emptyPaper ['n'] ['C']
    (by decide)

/-- C8: when a file already exists at the computed save path
(download folder, separator, filename, `.pdf`), `downloadPdf` with a
non-empty URL resolves with that path, performs zero network requests, and
leaves the filesystem unchanged. -/
theorem c8_existing_pdf_short_circuits (st : WriterSettings) (pathSep : List Char)
    (fetch : List Char → Option (List Char)) (fs : FS) (u filename : List Char)
    (hu : u ≠ [])
    (h : (lookupFS fs (st.pdfDownloadLocation ++ pathSep ++ filename ++ pdfExt)).isSome = true) :
    downloadPdf st pathSep fetch fs (some u) filename =
      (DlOutcome.resolved (st.pdfDownloadLocation ++ pathSep ++ filename ++ pdfExt), fs, []) := by
  have hne : u.isEmpty = false := isEmpty_false_of_ne _ hu
  have h2 : (lookupFS fs (st.pdfDownloadLocation ++ (pathSep ++ (filename ++ pdfExt)))).isSome
      = true := by
    simpa [List.append_assoc] using h
  simp [downloadPdf, hne, h2]

/-- C8 witness: the theorem applied to a vault already holding `p/f.pdf`. -/
theorem c8_existing_pdf_short_circuits_w :
    downloadPdf { bibSettings with pdfDownloadLocation := ['p'] } ['/']
      (fun _ => none) [(['p', '/', 'f'] ++ pdfExt, ['D'])] (some ['u']) ['f'] =
      (DlOutcome.resolved (['p'] ++ ['/'] ++ ['f'] ++ pdfExt),
        [(['p', '/', 'f'] ++ pdfExt, ['D'])], []) :=
  c8_existing_pdf_short_circuits { bibSettings with pdfDownloadLocation := ['p'] } ['/']
    (fun _ => none) [(['p', '/', 'f'] ++ pdfExt, ['D'])] ['u'] ['f'] (by decide) (by decide)

/-- C9: `constructFileName` keeps exactly the characters of the title inside
`[A-Za-z0-9 ]`, in order (the global regex delete is the filter on that
class), and the title `GPT-4: Technical Report!` derives the filename
`GPT4 Technical Report`. -/
theorem c9_filename_strips_unsafe :
    (∀ p : StructuredPaperData,
      constructFileName p = p.title.filter (fun c => isFileNameSafeChar c)) ∧
    constructFileName { emptyPaper with title := "GPT-4: Technical Report!".toList } =
      "GPT4 Technical Report".toList := by
  constructor
  · intro p
    exact stripUnsafeChars_eq_filter p.title
  · decide

/-- C10: with saving enabled and a location configured, if the BibTeX file
does not exist, `saveBibTex` leaves the (absent) file as it is — nothing is
created or written — and the only notice is the file-not-found report. -/
theorem c10_missing_bibfile_reports_not_found (st : WriterSettings) (e : List Char)
    (hen : st.saveBibTex = true) (hloc : st.bibTexFileLocation ≠ []) :
    saveBibTex st none e = (none, [BibNotice.notFound]) := by
  have hloc' : st.bibTexFileLocation.isEmpty = false := isEmpty_false_of_ne _ hloc
  simp [saveBibTex, hen, hloc']

/-- C10 witness: the theorem applied to the enabled settings and entry `E`. -/
theorem c10_missing_bibfile_reports_not_found_w :
    saveBibTex bibSettings none ['E'] = (none, [BibNotice.notFound]) :=
  c10_missing_bibfile_reports_not_found bibSettings ['E'] rfl (by decide)

end Scholar
